import Mathlib

/-!
Verification of the easyrent-code availability endpoints.

The repository contains two Vercel serverless handlers (plus two near-identical
historical drafts of the same handlers):

* search mode (`/api/planyo-available`): one upstream `resource_search` call,
  id extraction via `extractAvailableIdsStrict`;
* usage mode (`/api/planyo-availability`): one upstream `get_resource_usage`
  call per requested resource id, busy-interval extraction via
  `extractBusyRangesForResource`, overlap test via `rangesOverlap`, fan-out
  via `mapWithConcurrency`.

The embedding below models the JSON payloads as an inductive `JVal` (numbers
are modelled as integers: every number occurring in the relevant payloads —
unix seconds, response codes, resource ids — is integral), and models the
JavaScript primitives the code relies on (truthiness, `||`, optional
chaining, `Number(...)` parsing, `Date` comparison where an invalid date is
`none`).  Network transport, environment variables, CORS and the debug echo
are not modelled: no claim concerns them, and validation failures are
observable in the model as a `400` status together with an empty list of
outbound calls.
-/

/-- JSON-like values as delivered by the upstream API.  `null` also stands
for the JavaScript `undefined` (both are falsy, both make optional chaining
yield a missing value, and the code never distinguishes them). -/
inductive JVal where
  | null : JVal
  | bool (b : Bool) : JVal
  | num (n : Int) : JVal
  | str (s : String) : JVal
  | arr (elems : List JVal) : JVal
  | obj (kvs : List (String × JVal)) : JVal

/-- JavaScript truthiness of a value. -/
def truthy : JVal → Bool
  | .null => false
  | .bool b => b
  | .num n => decide (n ≠ 0)
  | .str s => !s.isEmpty
  | .arr _ => true
  | .obj _ => true

/-- JavaScript `a || b`: `a` when truthy, otherwise `b`. -/
def jsOr (a b : JVal) : JVal := if truthy a then a else b

/-- Null is falsy. -/
@[simp] theorem truthy_null : truthy JVal.null = false := rfl

/-- First field of an object with the given key (JavaScript objects have
unique keys, so first = only). -/
def findField : List (String × JVal) → String → JVal
  | [], _ => .null
  | (k, v) :: rest, key => if k = key then v else findField rest key

/-- Digit value of an ASCII digit character. -/
def dval (c : Char) : Option Nat :=
  if '0' ≤ c && c ≤ '9' then some (c.toNat - '0'.toNat) else none

/-- Whether a character is an ASCII decimal digit (the JavaScript regex
class \d). -/
def isDigitCh (c : Char) : Bool := (dval c).isSome

/-- Numeric value of a list of decimal digit characters. -/
def digitsToNat (ds : List Char) : Nat :=
  ds.foldl (fun a c => a * 10 + (dval c).getD 0) 0

/-- Canonical array index: JavaScript `arr[k]` for a string key `k` hits an
element only when `k` is the canonical decimal representation of an index. -/
def canonIndex (k : String) : Option Nat :=
  match k.data with
  | [] => none
  | ['0'] => some 0
  | c :: rest =>
      if isDigitCh c && c ≠ '0' && rest.all isDigitCh then
        some (digitsToNat (c :: rest))
      else none

/-- Property access `v?.[key]` / `v?.key`: a field of an object, an indexed
element of an array, and `undefined` (here `null`) in every other case. -/
def jget : JVal → String → JVal
  | .obj kvs, k => findField kvs k
  | .arr xs, k =>
      match canonIndex k with
      | some i => (xs.get? i).getD .null
      | none => .null
  | _, _ => .null

/-- Values enumerated by `for (const k of Object.keys(o)) ... o[k]`
(insertion order for objects, index order for arrays). -/
def entriesOf : JVal → List JVal
  | .obj kvs => kvs.map (fun kv => kv.2)
  | .arr xs => xs
  | _ => []

/-- Whether `typeof v === "object"` holds for a non-null value. -/
def objLike : JVal → Bool
  | .obj _ => true
  | .arr _ => true
  | _ => false

/-- Whether a value is the number 0 (for the strict comparison
`response_code !== 0`). -/
def isNumZero : JVal → Bool
  | .num 0 => true
  | _ => false

/-- Characters stripped by JavaScript string trimming (ASCII whitespace,
line terminators and the common Unicode spaces). -/
def jsWhite (c : Char) : Bool :=
  c = ' ' || c = '\t' || c = '\n' || c = '\r' ||
  c.val = 11 || c.val = 12 || c.val = 0xa0 || c.val = 0xfeff ||
  c.val = 0x1680 || (0x2000 ≤ c.val && c.val ≤ 0x200a) ||
  c.val = 0x2028 || c.val = 0x2029 || c.val = 0x202f || c.val = 0x205f ||
  c.val = 0x3000

/-- Characters of a string after JavaScript trimming of both ends. -/
def jsTrimChars (cs : List Char) : List Char :=
  ((cs.dropWhile jsWhite).reverse.dropWhile jsWhite).reverse

/-- JavaScript `String.prototype.trim`. -/
def jsTrim (s : String) : String := String.mk (jsTrimChars s.data)

/-- JavaScript `s.split(",")`. -/
def splitCommaAux : List Char → List Char → List String
  | [], acc => [String.mk acc.reverse]
  | c :: rest, acc =>
      if c = ',' then String.mk acc.reverse :: splitCommaAux rest []
      else splitCommaAux rest (c :: acc)

/-- JavaScript `s.split(",")` on a whole string. -/
def splitComma (s : String) : List String := splitCommaAux s.data []

/-- Source `parseIds` (identical in all four files): falsy input gives `[]`,
otherwise split on commas, trim every entry, drop empties. -/
def parseIds (csv : Option String) : List String :=
  match csv with
  | none => []
  | some c =>
      if c = "" then []
      else ((splitComma c).map jsTrim).filter (fun t => !t.isEmpty)

/-- Whether a string matches the source regex for ids, `^\d+$`. -/
def isDigits (s : String) : Bool := !s.data.isEmpty && s.data.all isDigitCh

/-- Decimal digit characters of a natural number (`fuel` bounds recursion
and is always sufficient since `n` shrinks by a factor of ten). -/
def natDigits : Nat → Nat → List Char
  | 0, _ => []
  | fuel + 1, n =>
      if n < 10 then [('0' :: "123456789".data).getD n '0']
      else natDigits fuel (n / 10) ++ [('0' :: "123456789".data).getD (n % 10) '0']

/-- Decimal representation of a natural number. -/
def natToStr (n : Nat) : String := String.mk (natDigits (n + 1) n)

/-- JavaScript `String(n)` for an integral number. -/
def jsStringOfNum (n : Int) : String :=
  if n < 0 then "-" ++ natToStr n.natAbs else natToStr n.natAbs

/-- Source `isValidISODate` on a string: the regex `^\d{4}-\d{2}-\d{2}$`. -/
def isValidISODateStr (s : String) : Bool :=
  match s.data with
  | [a, b, c, d, e, f, g, h, i, j] =>
      isDigitCh a && isDigitCh b && isDigitCh c && isDigitCh d && e = '-' &&
      isDigitCh f && isDigitCh g && h = '-' && isDigitCh i && isDigitCh j
  | _ => false

/-- Source `isValidISODate` on a raw query parameter
(`typeof s === "string" && regex`). -/
def isValidISODate : Option String → Bool
  | none => false
  | some s => isValidISODateStr s

/-- Whether a (proleptic Gregorian) year is a leap year. -/
def isLeap (y : Nat) : Bool := y % 4 = 0 && (y % 100 ≠ 0 || y % 400 = 0)

/-- Number of days in a month. -/
def daysInMonth (y m : Nat) : Nat :=
  if m = 2 then (if isLeap y then 29 else 28)
  else if m = 4 || m = 6 || m = 9 || m = 11 then 30
  else 31

/-- Days since 0000-03-01 of a civil date, era-based (the standard
days-from-civil algorithm, in pure natural arithmetic; callers shift the
year by +400 so the month adjustment never underflows). -/
def rataDie (y m d : Nat) : Nat :=
  let y1 := if m ≤ 2 then y - 1 else y
  let era := y1 / 400
  let yoe := y1 - era * 400
  let mp := (m + 9) % 12
  let doy := (153 * mp + 2) / 5 + d - 1
  let doe := yoe * 365 + yoe / 4 - yoe / 100 + doy
  era * 146097 + doe

/-- Days since the Unix epoch of a civil date with 0 ≤ year ≤ 9999. -/
def epochDay (y m d : Nat) : Int := (rataDie (y + 400) m d : Int) - 865565

/-- Source `toDateUTC`: `new Date(iso + "T00:00:00.000Z")` as milliseconds
since the epoch; `none` models an Invalid Date (the engine rejects
out-of-range components of the ISO format, e.g. month 13 or Feb 30). -/
def toDateUTC (s : String) : Option Int :=
  match s.data with
  | [y1, y2, y3, y4, '-', m1, m2, '-', d1, d2] =>
      match dval y1, dval y2, dval y3, dval y4, dval m1, dval m2, dval d1, dval d2 with
      | some a, some b, some c, some d, some e, some f, some g, some h =>
          let y := ((a * 10 + b) * 10 + c) * 10 + d
          let m := e * 10 + f
          let dd := g * 10 + h
          if 1 ≤ m && m ≤ 12 && 1 ≤ dd && dd ≤ daysInMonth y m then
            some (86400000 * epochDay y m dd)
          else none
      | _, _, _, _, _, _, _, _ => none
  | _ => none

/-- JavaScript `<` on two Date values (an invalid date compares as NaN:
every comparison with it is false). -/
def jsLt : Option Int → Option Int → Bool
  | some a, some b => decide (a < b)
  | _, _ => false

/-- Source `rangesOverlap` (usage-mode handler):
`aStart < bEnd && bStart < aEnd` on Date values. -/
def rangesOverlap (aStart aEnd bStart bEnd : Option Int) : Bool :=
  jsLt aStart bEnd && jsLt bStart aEnd

/-- Source `isUnixSeconds`:
`typeof n === "number" && n > 1000000000 && n < 99999999999`. -/
def isUnixSeconds : JVal → Bool
  | .num n => decide (1000000000 < n) && decide (n < 99999999999)
  | _ => false

/-- Source `unixSecondsToDateUTC` as epoch milliseconds. -/
def unixSecondsToDateUTC (sec : Int) : Option Int := some (sec * 1000)

/-- Exact decimal number `mant * 10 ^ exp`, the result of parsing a numeric
string.  The model uses exact arithmetic: rounding and overflow of IEEE
doubles are not modelled (every quantity exercised by the handlers is far
inside the exactly-representable range). -/
structure DecNum where
  mant : Int
  exp : Int
deriving DecidableEq, Repr

/-- Rational value denoted by a `DecNum`. -/
def qpow10 : Int → Rat
  | .ofNat k => (10 : Rat) ^ k
  | .negSucc k => ((10 : Rat) ^ (k + 1))⁻¹

/-- Rational value of a parsed decimal number. -/
def DecNum.toRat (d : DecNum) : Rat := (d.mant : Rat) * qpow10 d.exp

/-- Digit value in an arbitrary radix up to 16. -/
def radixVal (c : Char) : Option Nat :=
  if 'a' ≤ c && c ≤ 'f' then some (c.toNat - 'a'.toNat + 10)
  else if 'A' ≤ c && c ≤ 'F' then some (c.toNat - 'A'.toNat + 10)
  else dval c

/-- Parse the digits of a 0x / 0o / 0b literal (JavaScript `Number`). -/
def parseRadix (r : Nat) (ds : List Char) : Option DecNum :=
  if ds.isEmpty then none
  else
    (ds.foldl
      (fun acc c =>
        match acc, radixVal c with
        | some n, some v => if v < r then some (n * r + v) else none
        | _, _ => none)
      (some 0)).map (fun n => ⟨(n : Int), 0⟩)

/-- Parse an unsigned decimal literal with optional fraction and exponent.
`none` is NaN. -/
def parseDec (sign : Int) (cs : List Char) : Option DecNum :=
  let ip := cs.span isDigitCh
  let fp :=
    match ip.2 with
    | '.' :: r => (r.span isDigitCh).1
    | _ => []
  let rest2 :=
    match ip.2 with
    | '.' :: r => (r.span isDigitCh).2
    | _ => ip.2
  if ip.1.isEmpty && fp.isEmpty then none
  else
    match rest2 with
    | [] => some ⟨sign * (digitsToNat (ip.1 ++ fp) : Int), -(fp.length : Int)⟩
    | e :: r =>
        if e = 'e' || e = 'E' then
          let es :=
            match r with
            | '+' :: rr => ((1 : Int), rr)
            | '-' :: rr => ((-1 : Int), rr)
            | _ => ((1 : Int), r)
          let ed := es.2.span isDigitCh
          if ed.1.isEmpty || !ed.2.isEmpty then none
          else
            some ⟨sign * (digitsToNat (ip.1 ++ fp) : Int),
                  es.1 * (digitsToNat ed.1 : Int) - (fp.length : Int)⟩
        else none

/-- Parse a decimal literal or the `Infinity` literal (`none` covers both
NaN and an infinity: neither passes `Number.isFinite`). -/
def parseDecOrInf (sign : Int) (cs : List Char) : Option DecNum :=
  if cs = "Infinity".data then none else parseDec sign cs

/-- Parse an optionally signed decimal or `Infinity` literal. -/
def parseSignedDec : List Char → Option DecNum
  | '+' :: rest => parseDecOrInf 1 rest
  | '-' :: rest => parseDecOrInf (-1) rest
  | cs => parseDecOrInf 1 cs

/-- JavaScript `Number(s)` on a string: trim; empty gives 0; hex, octal and
binary literals; otherwise a signed decimal literal with optional fraction
and exponent.  `none` stands for a non-finite result (NaN or an infinity),
which is exactly what `Number.isFinite` rejects. -/
def jsNumber (s : String) : Option DecNum :=
  match jsTrimChars s.data with
  | [] => some ⟨0, 0⟩
  | '0' :: c :: rest =>
      if c = 'x' || c = 'X' then parseRadix 16 rest
      else if c = 'o' || c = 'O' then parseRadix 8 rest
      else if c = 'b' || c = 'B' then parseRadix 2 rest
      else parseSignedDec ('0' :: c :: rest)
  | cs => parseSignedDec cs

/-- Deduplication keeping the first occurrence, `Array.from(new Set(xs))`
(a JavaScript Set iterates in first-insertion order). -/
def dedupFirstAux (seen : List String) : List String → List String
  | [] => []
  | a :: l =>
      if a ∈ seen then dedupFirstAux seen l
      else a :: dedupFirstAux (a :: seen) l

/-- Deduplication keeping the first occurrence. -/
def dedupKeepFirst (l : List String) : List String := dedupFirstAux [] l

/-- Coerced id of one results entry:
`const id = item?.id || item?.resource_id;` followed by the digit-string or
number acceptance tests of the source loop. -/
def coerceEntryId (item : JVal) : Option String :=
  match jsOr (jget item "id") (jget item "resource_id") with
  | .str s => if isDigits s then some s else none
  | .num n => some (jsStringOfNum n)
  | _ => none

/-- Body of the source extraction loop, accumulating the pushed ids in
order. -/
def collectIds : List JVal → List String
  | [] => []
  | item :: rest =>
      (match coerceEntryId item with
       | some s => [s]
       | none => []) ++ collectIds rest

/-- Source `extractAvailableIdsStrict` (search mode): resolve the results
collection as `data?.results || result?.results || results || null`, bail
out with `[]` unless it is a non-null object, push the coerced id of every
entry, and deduplicate via a Set. -/
def extractAvailableIdsStrict (planyoData : JVal) : List String :=
  let resultsObj :=
    jsOr (jsOr (jsOr (jget (jget planyoData "data") "results")
                     (jget (jget planyoData "result") "results"))
               (jget planyoData "results"))
         .null
  if truthy resultsObj && objLike resultsObj then
    dedupKeepFirst (collectIds (entriesOf resultsObj))
  else []

/-- First non-null value of a list (the alias-resolution rule exactly as the
specification words it: first NON-NULL wins). -/
def firstNonNullJ : List JVal → Option JVal
  | [] => none
  | v :: rest =>
      match v with
      | .null => firstNonNullJ rest
      | _ => some v

/-- First truthy value of a list (the alias-resolution rule the code
actually implements with `||`). -/
def firstTruthyJ : List JVal → Option JVal
  | [] => none
  | v :: rest => if truthy v then some v else firstTruthyJ rest

/-- Search-mode id extraction exactly as the specification words it: locate
the results collection by trying `data.results`, `result.results`,
`results`, first NON-NULL wins; coerce each entry, deduplicate in
first-seen order; no collection means an empty output. -/
def extractIdsSpecNonNull (planyoData : JVal) : List String :=
  match firstNonNullJ [jget (jget planyoData "data") "results",
                       jget (jget planyoData "result") "results",
                       jget planyoData "results"] with
  | none => []
  | some c =>
      if objLike c then dedupKeepFirst ((entriesOf c).filterMap coerceEntryId)
      else []

/-- Search-mode id extraction as the specification words it, amended in one
point: first TRUTHY alias wins (which is what `||` tests), not first
non-null. -/
def extractIdsSpecTruthy (planyoData : JVal) : List String :=
  match firstTruthyJ [jget (jget planyoData "data") "results",
                      jget (jget planyoData "result") "results",
                      jget planyoData "results"] with
  | none => []
  | some c =>
      if objLike c then dedupKeepFirst ((entriesOf c).filterMap coerceEntryId)
      else []

/-- Primary container of the usage response:
`planyoData?.data?.usage?.[rid]`. -/
def usageContainer (planyoData : JVal) (rid : String) : JVal :=
  jget (jget (jget planyoData "data") "usage") rid

/-- Intervals pushed by the primary loop: entries whose `from` / `to` are
unix-second numbers, converted to millisecond Date pairs. -/
def collectUnixPairs (items : List JVal) : List (Option Int × Option Int) :=
  items.filterMap fun item =>
    match jget item "from", jget item "to" with
    | .num f, .num t =>
        if isUnixSeconds (.num f) && isUnixSeconds (.num t) then
          some (unixSecondsToDateUTC f, unixSecondsToDateUTC t)
        else none
    | _, _ => none

/-- Intervals the primary path alone would yield. -/
def primaryBusy (planyoData : JVal) (rid : String) : List (Option Int × Option Int) :=
  let u := usageContainer planyoData rid
  if truthy u && objLike u then collectUnixPairs (entriesOf u) else []

/-- The `.find(Array.isArray)` over the fallback container paths. -/
def firstArrJ : List JVal → Option (List JVal)
  | [] => none
  | .arr xs :: _ => some xs
  | _ :: rest => firstArrJ rest

/-- Fallback container scan:
`[data?.periods, periods, data?.bookings, bookings, result?.periods]`. -/
def fallbackCandidates (planyoData : JVal) : Option (List JVal) :=
  firstArrJ [jget (jget planyoData "data") "periods",
             jget planyoData "periods",
             jget (jget planyoData "data") "bookings",
             jget planyoData "bookings",
             jget (jget planyoData "result") "periods"]

/-- ISO-string alias chains of the fallback loop and its interval
conversion: ISO `from/to`-style fields first, unix-second fields second. -/
def fallbackItemInterval (item : JVal) : Option (Option Int × Option Int) :=
  let fromIso :=
    jsOr (jsOr (jsOr (jsOr (jget item "from") (jget item "start"))
                     (jget item "date_from"))
               (jget item "begin"))
         (jget item "start_date")
  let toIso :=
    jsOr (jsOr (jsOr (jsOr (jget item "to") (jget item "end"))
                     (jget item "date_to"))
               (jget item "finish"))
         (jget item "end_date")
  match fromIso, toIso with
  | .str fs, .str ts =>
      if isValidISODateStr fs && isValidISODateStr ts then
        some (toDateUTC fs, toDateUTC ts)
      else
        match jget item "from", jget item "to" with
        | .num f, .num t =>
            if isUnixSeconds (.num f) && isUnixSeconds (.num t) then
              some (unixSecondsToDateUTC f, unixSecondsToDateUTC t)
            else none
        | _, _ => none
  | _, _ =>
      match jget item "from", jget item "to" with
      | .num f, .num t =>
          if isUnixSeconds (.num f) && isUnixSeconds (.num t) then
            some (unixSecondsToDateUTC f, unixSecondsToDateUTC t)
          else none
      | _, _ => none

/-- Source `extractBusyRangesForResource` (usage mode): primary path
`data.usage[rid]` when it is a non-null object, otherwise the fallback
container scan, otherwise `[]`. -/
def extractBusyRangesForResource (planyoData : JVal) (rid : String) :
    List (Option Int × Option Int) :=
  let u := usageContainer planyoData rid
  if truthy u && objLike u then collectUnixPairs (entriesOf u)
  else
    match fallbackCandidates planyoData with
    | none => []
    | some items => items.filterMap fallbackItemInterval

/-- Application-level upstream error test, shared by all handlers:
`planyoData?.response_code && planyoData.response_code !== 0`; when it
holds the pair (code, message) is reported. -/
def errCode (planyoData : JVal) : Option (JVal × JVal) :=
  let rc := jget planyoData "response_code"
  if truthy rc && !isNumZero rc then some (rc, jget planyoData "response_message")
  else none

/-- Outcome of one usage-mode lookup in the conservative handler
(the canonical variant, with the per-id error map). -/
structure RState where
  id : String
  isAvailable : Bool
  err : Option (JVal × JVal)

/-- Per-resource classification of the conservative usage handler: a
non-zero upstream response code marks the resource unavailable and records
the code/message; otherwise the busy ranges are extracted and availability
is the absence of an overlap with the requested window. -/
def classifyUsage (planyoData : JVal) (id : String) (sd ed : Option Int) : RState :=
  match errCode planyoData with
  | some e => ⟨id, false, some e⟩
  | none =>
      let busyRanges := extractBusyRangesForResource planyoData id
      ⟨id, !busyRanges.any (fun b => rangesOverlap sd ed b.1 b.2), none⟩

/-- Outcome of one usage-mode lookup in the historical permissive handler
(src/api/planyo-availability.js): on a non-zero upstream response code it
returns `{ id, isAvailable: true }` and records nothing. -/
structure RLite where
  id : String
  isAvailable : Bool

/-- Per-resource classification of the permissive usage handler variant. -/
def classifyUsagePermissive (planyoData : JVal) (id : String) (sd ed : Option Int) : RLite :=
  match errCode planyoData with
  | some _ => ⟨id, true⟩
  | none =>
      let busyRanges := extractBusyRangesForResource planyoData id
      ⟨id, !busyRanges.any (fun b => rangesOverlap sd ed b.1 b.2)⟩

/-- Date of a raw query parameter: `toDateUTC` is only reached on
parameters that passed the ISO-format check, so an absent parameter maps to
an invalid date. -/
def toDateUTCOpt : Option String → Option Int
  | none => none
  | some s => toDateUTC s

/-- Validation phase shared by both usage-handler variants, in source
order: ISO-format check of `start` and `end`, then the strict
`toDateUTC start < toDateUTC end` range check, then non-emptiness of the
parsed id list.  `none` is a 400 rejection before any outbound call. -/
def usageValidate (startQ endQ ridsQ : Option String) :
    Option (Option Int × Option Int × List String) :=
  if !(isValidISODate startQ && isValidISODate endQ) then none
  else
    let startDate := toDateUTCOpt startQ
    let endDate := toDateUTCOpt endQ
    if !jsLt startDate endDate then none
    else
      let ids := parseIds ridsQ
      if ids.isEmpty then none
      else some (startDate, endDate, ids)

/-- Observable outcome of one usage-mode request (conservative handler).
`outboundCalls` lists the resource ids an upstream call was issued for. -/
structure UsageRun where
  status : Nat
  outboundCalls : List String
  availableResourceIds : List String
  unavailableResourceIds : List String
  errorsByResourceId : List (String × JVal × JVal)

/-- Success path of the conservative usage handler.  The fan-out is modelled
as a sequential map: `mapWithConcurrency` writes each result into the slot
of its original index, so the result order equals the request order
regardless of scheduling (proved below for the worker-pool model). -/
def usageRunOk (sd ed : Option Int) (ids : List String) (upstream : String → JVal) :
    UsageRun :=
  let results := ids.map fun id => classifyUsage (upstream id) id sd ed
  ⟨200, ids,
    (results.filter (fun r => r.isAvailable)).map (fun r => r.id),
    (results.filter (fun r => !r.isAvailable)).map (fun r => r.id),
    results.filterMap (fun r => r.err.map (fun e => (r.id, e)))⟩

/-- Conservative usage handler (src/unnamed/part_001): validation, fan-out,
partition into available / unavailable ids plus the per-id error map. -/
def usageHandler (startQ endQ ridsQ : Option String) (upstream : String → JVal) :
    UsageRun :=
  match usageValidate startQ endQ ridsQ with
  | none => ⟨400, [], [], [], []⟩
  | some (sd, ed, ids) => usageRunOk sd ed ids upstream

/-- Observable outcome of one usage-mode request (permissive variant, which
has no error map in its response). -/
structure UsageRunP where
  status : Nat
  outboundCalls : List String
  availableResourceIds : List String
  unavailableResourceIds : List String

/-- Success path of the permissive usage handler variant. -/
def usageRunOkPermissive (sd ed : Option Int) (ids : List String)
    (upstream : String → JVal) : UsageRunP :=
  let results := ids.map fun id => classifyUsagePermissive (upstream id) id sd ed
  ⟨200, ids,
    (results.filter (fun r => r.isAvailable)).map (fun r => r.id),
    (results.filter (fun r => !r.isAvailable)).map (fun r => r.id)⟩

/-- Permissive usage handler variant (src/api/planyo-availability.js, lines
465-579): identical validation, but an upstream application error leaves the
resource marked available. -/
def usageHandlerPermissive (startQ endQ ridsQ : Option String)
    (upstream : String → JVal) : UsageRunP :=
  match usageValidate startQ endQ ridsQ with
  | none => ⟨400, [], [], []⟩
  | some (sd, ed, ids) => usageRunOkPermissive sd ed ids upstream

/-- Quantity parsing of the search handler: `Number(quantity || 1)`
(an absent or empty parameter is falsy, so it falls back to the number 1). -/
def parseQty : Option String → Option DecNum
  | none => some ⟨1, 0⟩
  | some s => if s = "" then some ⟨1, 0⟩ else jsNumber s

/-- Validation phase of the search handler, in source order: ISO-format
check of `start` and `end`, then the quantity check
`Number.isFinite(qty) && qty > 0`.  The positivity test is expressed on the
mantissa; `DecNum.toRat_pos` below proves it equivalent to positivity of the
denoted value. -/
def searchValidate (startQ endQ quantityQ ridsQ : Option String) :
    Option (DecNum × List String) :=
  if !(isValidISODate startQ && isValidISODate endQ) then none
  else
    match parseQty quantityQ with
    | none => none
    | some qty =>
        if qty.mant ≤ 0 then none
        else some (qty, parseIds ridsQ)

/-- Observable outcome of one search-mode request.  `madeCall` records
whether the single upstream `resource_search` call was issued;
`callQuantity` and `callFilter` record the quantity and the optional
`ppp_resfilter` CSV it carried. -/
structure SearchRun where
  status : Nat
  madeCall : Bool
  callQuantity : Option DecNum
  callFilter : Option String
  availableResourceIds : List String
  unavailableResourceIds : List String
  upstreamError : Bool

/-- JavaScript `ids.join(",")`. -/
def joinComma : List String → String
  | [] => ""
  | [x] => x
  | x :: xs => x ++ "," ++ joinComma xs

/-- Search handler (src/api/planyo-available.js): validation, one upstream
call, then either the error echo (empty available list, every filtered id
unavailable) or extraction plus the filter complement. -/
def searchHandler (startQ endQ quantityQ ridsQ : Option String) (upstream : JVal) :
    SearchRun :=
  match searchValidate startQ endQ quantityQ ridsQ with
  | none => ⟨400, false, none, none, [], [], false⟩
  | some (qty, idsFilter) =>
      let filt := if idsFilter.isEmpty then none else some (joinComma idsFilter)
      match errCode upstream with
      | some _ =>
          ⟨200, true, some qty, filt, [],
            if idsFilter.isEmpty then [] else idsFilter, true⟩
      | none =>
          let avail := extractAvailableIdsStrict upstream
          ⟨200, true, some qty, filt, avail,
            if idsFilter.isEmpty then []
            else idsFilter.filter (fun id => !avail.contains id), false⟩

namespace Mwc

/-- Status of one worker of the `mapWithConcurrency` pool: at the loop head,
awaiting the call for a claimed index, or exited. -/
inductive WStat where
  | ready : WStat
  | running (idx : Nat) : WStat
  | finished : WStat
deriving DecidableEq, Repr

/-- State of the pool: the shared index cursor `i`, the slot array
`results` (a total map, `none` = not yet written), and the worker
statuses. -/
structure St (β : Type) where
  cursor : Nat
  slots : Nat → Option β
  ws : Nat → WStat

/-- One scheduler step of `mapWithConcurrency(items, ..., fn)` with `W`
workers.  Claiming an index (`const idx = i++`) is synchronous and hence
atomic; the await completes later and writes `results[idx]`; a worker whose
cursor check fails exits.  The relation is nondeterministic in which worker
moves, so every completion order is covered. -/
inductive Step {α β : Type} (items : List α) (fn : α → Nat → β) (W : Nat) :
    St β → St β → Prop where
  | claim (s : St β) (w : Nat) (hwlt : w < W) (hw : s.ws w = .ready)
      (hc : s.cursor < items.length) :
      Step items fn W s
        ⟨s.cursor + 1, s.slots, Function.update s.ws w (.running s.cursor)⟩
  | finish (s : St β) (w idx : Nat) (a : α) (hwlt : w < W)
      (hw : s.ws w = .running idx) (ha : items.get? idx = some a) :
      Step items fn W s
        ⟨s.cursor, Function.update s.slots idx (some (fn a idx)),
          Function.update s.ws w .ready⟩
  | exitw (s : St β) (w : Nat) (hwlt : w < W) (hw : s.ws w = .ready)
      (hc : items.length ≤ s.cursor) :
      Step items fn W s ⟨s.cursor, s.slots, Function.update s.ws w .finished⟩

/-- Initial pool state: cursor 0, empty slot array, `W` live workers. -/
def init (W : Nat) {β : Type} : St β :=
  ⟨0, fun _ => none, fun w => if w < W then .ready else .finished⟩

/-- All workers have exited: `Promise.all(workers)` has resolved. -/
def Terminal {β : Type} (s : St β) : Prop := ∀ w, s.ws w = WStat.finished

/-- The list the pool returns, read off the slot array. -/
def result {β : Type} (n : Nat) (s : St β) : List (Option β) :=
  (List.range n).map s.slots

/-- Invariant of the pool: the cursor never passes the length, slots at or
beyond the cursor are unwritten, every slot below the cursor is either
correctly written or claimed by exactly one live worker, and a worker can
only have exited once the cursor reached the end. -/
structure Inv {α β : Type} (items : List α) (fn : α → Nat → β) (W : Nat)
    (s : St β) : Prop where
  cursor_le : s.cursor ≤ items.length
  slots_hi : ∀ j, s.cursor ≤ j → s.slots j = none
  slots_lo : ∀ j, j < s.cursor →
    (∃ a, items.get? j = some a ∧ s.slots j = some (fn a j)) ∨
      ∃ w, w < W ∧ s.ws w = .running j
  run_lt : ∀ w j, s.ws w = .running j → j < s.cursor
  run_uniq : ∀ w w2 j, s.ws w = .running j → s.ws w2 = .running j → w = w2
  fin_cursor : ∀ w, w < W → s.ws w = .finished → items.length ≤ s.cursor


theorem init_inv {α β : Type} (items : List α) (fn : α → Nat → β) (W : Nat) :
    Inv items fn W (init W (β := β)) := by
  refine ⟨Nat.zero_le _, fun j _ => rfl, fun j hj => absurd hj (Nat.not_lt_zero j),
    ?_, ?_, ?_⟩
  · intro w j h
    simp only [init] at h
    split at h <;> exact WStat.noConfusion h
  · intro w w2 j h h2
    simp only [init] at h
    split at h <;> exact WStat.noConfusion h
  · intro w hw h
    simp only [init, if_pos hw] at h
    exact WStat.noConfusion h

theorem step_inv {α β : Type} {items : List α} {fn : α → Nat → β} {W : Nat}
    {s s' : St β} (hinv : Inv items fn W s) (hstep : Step items fn W s s') :
    Inv items fn W s' := by
  cases hstep with
  | claim w hwlt hw hc =>
      refine ⟨hc, ?_, ?_, ?_, ?_, ?_⟩ <;> dsimp only
      · intro j hj
        exact hinv.slots_hi j (Nat.le_of_succ_le hj)
      · intro j hj
        rcases Nat.lt_or_ge j s.cursor with hlt | hge
        · rcases hinv.slots_lo j hlt with h | ⟨w2, hw2lt, hw2⟩
          · exact Or.inl h
          · refine Or.inr ⟨w2, hw2lt, ?_⟩
            have hne : w2 ≠ w := by
              intro he; rw [he, hw] at hw2; exact WStat.noConfusion hw2
            rw [Function.update_noteq hne]; exact hw2
        · have hj' : j = s.cursor := Nat.le_antisymm (Nat.lt_succ_iff.mp hj) hge
          subst hj'
          exact Or.inr ⟨w, hwlt, by rw [Function.update_same]⟩
      · intro w2 j h
        by_cases he : w2 = w
        · subst he
          rw [Function.update_same] at h
          cases h
          exact Nat.lt_succ_self _
        · rw [Function.update_noteq he] at h
          exact Nat.lt_succ_of_lt (hinv.run_lt w2 j h)
      · intro w1 w2 j h1 h2
        by_cases he1 : w1 = w <;> by_cases he2 : w2 = w
        · rw [he1, he2]
        · subst he1
          rw [Function.update_same] at h1
          rw [Function.update_noteq he2] at h2
          cases h1
          exact absurd (hinv.run_lt w2 _ h2) (Nat.lt_irrefl _)
        · subst he2
          rw [Function.update_same] at h2
          rw [Function.update_noteq he1] at h1
          cases h2
          exact absurd (hinv.run_lt w1 _ h1) (Nat.lt_irrefl _)
        · rw [Function.update_noteq he1] at h1
          rw [Function.update_noteq he2] at h2
          exact hinv.run_uniq w1 w2 j h1 h2
      · intro w2 hw2lt h
        by_cases he : w2 = w
        · subst he; rw [Function.update_same] at h; exact WStat.noConfusion h
        · rw [Function.update_noteq he] at h
          exact Nat.le_succ_of_le (hinv.fin_cursor w2 hw2lt h)
  | finish w idx a hwlt hw ha =>
      have hidx : idx < s.cursor := hinv.run_lt w idx hw
      refine ⟨hinv.cursor_le, ?_, ?_, ?_, ?_, ?_⟩ <;> dsimp only
      · intro j hj
        have hne : idx ≠ j := by
          intro he; subst he; exact absurd hj (Nat.not_le_of_lt hidx)
        rw [Function.update_noteq (fun he => hne he.symm)]
        exact hinv.slots_hi j hj
      · intro j hj
        by_cases he : j = idx
        · subst he
          exact Or.inl ⟨a, ha, by rw [Function.update_same]⟩
        · rcases hinv.slots_lo j hj with ⟨b, hb, hs⟩ | ⟨w2, hw2lt, hw2⟩
          · exact Or.inl ⟨b, hb, by rw [Function.update_noteq he]; exact hs⟩
          · have hne : w2 ≠ w := by
              intro hww; subst hww; rw [hw2] at hw
              cases hw; exact he rfl
            exact Or.inr ⟨w2, hw2lt, by rw [Function.update_noteq hne]; exact hw2⟩
      · intro w2 j h
        by_cases he : w2 = w
        · subst he; rw [Function.update_same] at h; exact WStat.noConfusion h
        · rw [Function.update_noteq he] at h
          exact hinv.run_lt w2 j h
      · intro w1 w2 j h1 h2
        by_cases he1 : w1 = w
        · subst he1; rw [Function.update_same] at h1; exact WStat.noConfusion h1
        · by_cases he2 : w2 = w
          · subst he2; rw [Function.update_same] at h2; exact WStat.noConfusion h2
          · rw [Function.update_noteq he1] at h1
            rw [Function.update_noteq he2] at h2
            exact hinv.run_uniq w1 w2 j h1 h2
      · intro w2 hw2lt h
        by_cases he : w2 = w
        · subst he; rw [Function.update_same] at h; exact WStat.noConfusion h
        · rw [Function.update_noteq he] at h
          exact hinv.fin_cursor w2 hw2lt h
  | exitw w hwlt hw hc =>
      refine ⟨hinv.cursor_le, hinv.slots_hi, ?_, ?_, ?_, ?_⟩ <;> dsimp only
      · intro j hj
        rcases hinv.slots_lo j hj with h | ⟨w2, hw2lt, hw2⟩
        · exact Or.inl h
        · have hne : w2 ≠ w := by
            intro he; subst he; rw [hw2] at hw; exact WStat.noConfusion hw
          exact Or.inr ⟨w2, hw2lt, by rw [Function.update_noteq hne]; exact hw2⟩
      · intro w2 j h
        by_cases he : w2 = w
        · subst he; rw [Function.update_same] at h; exact WStat.noConfusion h
        · rw [Function.update_noteq he] at h
          exact hinv.run_lt w2 j h
      · intro w1 w2 j h1 h2
        by_cases he1 : w1 = w
        · subst he1; rw [Function.update_same] at h1; exact WStat.noConfusion h1
        · by_cases he2 : w2 = w
          · subst he2; rw [Function.update_same] at h2; exact WStat.noConfusion h2
          · rw [Function.update_noteq he1] at h1
            rw [Function.update_noteq he2] at h2
            exact hinv.run_uniq w1 w2 j h1 h2
      · intro w2 hw2lt h
        by_cases he : w2 = w
        · subst he; exact hc
        · rw [Function.update_noteq he] at h
          exact hinv.fin_cursor w2 hw2lt h

theorem reach_inv {α β : Type} {items : List α} {fn : α → Nat → β} {W : Nat}
    {s : St β}
    (hr : Relation.ReflTransGen (Step items fn W) (init W (β := β)) s) :
    Inv items fn W s := by
  induction hr with
  | refl => exact init_inv items fn W
  | tail _ hstep ih => exact step_inv ih hstep

end Mwc

theorem dedupFirstAux_subset {x : String} :
    ∀ (l seen : List String), x ∈ dedupFirstAux seen l → x ∈ l := by
  intro l
  induction l with
  | nil => intro seen h; exact absurd h (List.not_mem_nil x)
  | cons a l ih =>
      intro seen h
      simp only [dedupFirstAux] at h
      split at h
      · exact List.mem_cons_of_mem a (ih seen h)
      · rcases List.mem_cons.mp h with he | hm
        · exact he ▸ List.mem_cons_self a l
        · exact List.mem_cons_of_mem a (ih (a :: seen) hm)

theorem dedupFirstAux_not_seen {x : String} :
    ∀ (l seen : List String), x ∈ dedupFirstAux seen l → x ∉ seen := by
  intro l
  induction l with
  | nil => intro seen h; exact absurd h (List.not_mem_nil x)
  | cons a l ih =>
      intro seen h
      simp only [dedupFirstAux] at h
      split at h
      · exact ih seen h
      · rcases List.mem_cons.mp h with he | hm
        · subst he; assumption
        · intro hs
          exact ih (a :: seen) hm (List.mem_cons_of_mem a hs)

theorem dedupFirstAux_nodup :
    ∀ (l seen : List String), (dedupFirstAux seen l).Nodup := by
  intro l
  induction l with
  | nil => intro seen; exact List.nodup_nil
  | cons a l ih =>
      intro seen
      simp only [dedupFirstAux]
      split
      · exact ih seen
      · refine List.Nodup.cons ?_ (ih (a :: seen))
        intro hm
        exact dedupFirstAux_not_seen l (a :: seen) hm (List.mem_cons_self a seen)

theorem dedupKeepFirst_nodup (l : List String) : (dedupKeepFirst l).Nodup :=
  dedupFirstAux_nodup l []

theorem dedupKeepFirst_subset {x : String} {l : List String}
    (h : x ∈ dedupKeepFirst l) : x ∈ l :=
  dedupFirstAux_subset l [] h

theorem collectIds_eq_filterMap (l : List JVal) :
    collectIds l = l.filterMap coerceEntryId := by
  induction l with
  | nil => rfl
  | cons a l ih =>
      simp only [collectIds, List.filterMap_cons, ih]
      cases coerceEntryId a <;> simp

theorem coerceEntryId_shape {item : JVal} {x : String}
    (h : coerceEntryId item = some x) :
    isDigits x = true ∨ ∃ n : Int, x = jsStringOfNum n := by
  unfold coerceEntryId at h
  split at h
  · split at h
    · exact Or.inl (by cases h; assumption)
    · exact Option.noConfusion h
  · exact Or.inr ⟨_, (Option.some.injEq _ _ ▸ h : _ = x).symm⟩
  · exact Option.noConfusion h

theorem natDigits_ne_nil (fuel n : Nat) : natDigits (fuel + 1) n ≠ [] := by
  unfold natDigits
  split
  · exact List.cons_ne_nil _ _
  · intro h
    exact absurd (List.append_eq_nil.mp h).2 (List.cons_ne_nil _ _)

theorem jsStringOfNum_ne_empty (n : Int) : jsStringOfNum n ≠ "" := by
  unfold jsStringOfNum natToStr
  split <;> intro h
  · have : ("-" ++ String.mk (natDigits (n.natAbs + 1) n.natAbs)).data =
        ("" : String).data := by rw [h]
    simp [String.data_append] at this
  · have : (String.mk (natDigits (n.natAbs + 1) n.natAbs)).data = ("" : String).data := by
      rw [h]
    exact natDigits_ne_nil _ _ this

theorem isDigits_ne_empty {x : String} (h : isDigits x = true) : x ≠ "" := by
  intro he
  subst he
  simp [isDigits] at h

/-- C2: for timestamps a0 < a1 and b0 < b1, `rangesOverlap` is symmetric in
its two half-open intervals, and it returns false whenever a1 <= b0 or
b1 <= a0 (touching intervals do not overlap). -/
theorem rangesOverlap_symm_touch (a0 a1 b0 b1 : Int)
    (_ha : a0 < a1) (_hb : b0 < b1) :
    rangesOverlap (some a0) (some a1) (some b0) (some b1) =
      rangesOverlap (some b0) (some b1) (some a0) (some a1) ∧
    ((a1 ≤ b0 ∨ b1 ≤ a0) →
      rangesOverlap (some a0) (some a1) (some b0) (some b1) = false) := by
  constructor
  · simp only [rangesOverlap, jsLt]
    exact Bool.and_comm _ _
  · intro h
    simp only [rangesOverlap, jsLt, Bool.and_eq_false_iff, decide_eq_false_iff_not,
      Int.not_lt]
    omega

/-- Witness for C2 at the touching intervals [0,1) and [1,2). -/
theorem rangesOverlap_symm_touch_witness :
    rangesOverlap (some 0) (some 1) (some 1) (some 2) =
      rangesOverlap (some 1) (some 2) (some 0) (some 1) ∧
    rangesOverlap (some 0) (some 1) (some 1) (some 2) = false := by
  have h := rangesOverlap_symm_touch 0 1 1 2 (by decide) (by decide)
  exact ⟨h.1, h.2 (Or.inl (by decide))⟩

/-- Payload refuting the "first non-null wins" alias-resolution rule of C3:
`data.results` is the (non-null but falsy) number 0, while a truthy results
collection sits at the top level. -/
def ceAliasPayload : JVal :=
  .obj [("data", .obj [("results", .num 0)]),
        ("results", .obj [("a", .obj [("id", .str "7")])])]

/-- Counterexample to C3 as stated: on `ceAliasPayload` the code skips the
non-null `data.results` (because 0 is falsy) and extracts ["7"] from the
top-level collection, while the first-non-null rule of the claim resolves
the collection to 0 and yields []. -/
theorem extract_alias_nonnull_ce :
    extractAvailableIdsStrict ceAliasPayload = ["7"] ∧
    extractIdsSpecNonNull ceAliasPayload = [] := by
  exact ⟨rfl, rfl⟩

/-- C3 (amended): search-mode id extraction equals the specification-side
extraction in which the first TRUTHY alias wins (`data.results`, then
`result.results`, then `results`); entry coercion, first-seen
deduplication and the empty output in the no-collection case are as the
claim states. -/
theorem extract_matches_truthy_alias (p : JVal) :
    extractAvailableIdsStrict p = extractIdsSpecTruthy p := by
  unfold extractAvailableIdsStrict extractIdsSpecTruthy
  dsimp only
  rw [collectIds_eq_filterMap]
  cases h1 : truthy (jget (jget p "data") "results") <;>
    cases h2 : truthy (jget (jget p "result") "results") <;>
      cases h3 : truthy (jget p "results") <;>
        simp [jsOr, firstTruthyJ, h1, h2, h3]

/-- Payload refuting the digits-only part of C10: a numeric id −5 is
coerced by `String(id)` into "-5". -/
def ceNegIdPayload : JVal :=
  .obj [("results", .obj [("a", .obj [("id", .num (-5))])])]

/-- Counterexample to C10 as stated: the extraction output contains "-5", a
non-digit string (the leading minus sign survives the number-to-string
coercion, and `^\d+$` is only tested for ids that arrive as strings). -/
theorem extract_ids_negative_ce :
    extractAvailableIdsStrict ceNegIdPayload = ["-5"] ∧
    isDigits "-5" = false := by
  exact ⟨rfl, rfl⟩

/-- C10 (amended): every element of `extractAvailableIdsStrict` is a
non-empty string occurring exactly once (the output has no duplicates), and
each element is either a digit string (a string id that passed `^\d+$`) or
the decimal representation of an integral numeric id, possibly with a
leading minus sign; unrecognized entries contribute nothing. -/
theorem extract_ids_shape (p : JVal) :
    (extractAvailableIdsStrict p).Nodup ∧
    ∀ x ∈ extractAvailableIdsStrict p,
      x ≠ "" ∧ (isDigits x = true ∨ ∃ n : Int, x = jsStringOfNum n) := by
  unfold extractAvailableIdsStrict
  dsimp only
  split
  · refine ⟨dedupKeepFirst_nodup _, ?_⟩
    intro x hx
    have hx' := dedupKeepFirst_subset hx
    rw [collectIds_eq_filterMap] at hx'
    obtain ⟨item, _, hco⟩ := List.mem_filterMap.mp hx'
    have hsh := coerceEntryId_shape hco
    refine ⟨?_, hsh⟩
    rcases hsh with hd | ⟨n, hn⟩
    · exact isDigits_ne_empty hd
    · exact hn ▸ jsStringOfNum_ne_empty n
  · exact ⟨List.nodup_nil, fun x hx => absurd hx (List.not_mem_nil x)⟩

/-- Witness for C10 (amended) at a concrete payload containing the id
"7". -/
theorem extract_ids_shape_witness :
    ("7" ≠ "" ∧ (isDigits "7" = true ∨ ∃ n : Int, "7" = jsStringOfNum n)) :=
  (extract_ids_shape (.obj [("results", .obj [("a", .obj [("id", .str "7")])])])).2
    "7" (by decide)

/-- C4: the fallback container scan is used only when the primary path
`data.usage[resourceId]` yields no intervals (whenever the primary path
yields any interval, the extraction result is exactly the primary result),
and a payload with no recognizable container at all yields the empty
interval list — on which, absent an upstream error code, the resource is
classified fully available. -/
theorem busy_fallback_only_if_primary_empty (p : JVal) (rid : String)
    (sd ed : Option Int) :
    (primaryBusy p rid ≠ [] →
      extractBusyRangesForResource p rid = primaryBusy p rid) ∧
    ((truthy (usageContainer p rid) && objLike (usageContainer p rid)) = false →
      fallbackCandidates p = none →
      extractBusyRangesForResource p rid = [] ∧
      (errCode p = none → (classifyUsage p rid sd ed).isAvailable = true)) := by
  constructor
  · intro hne
    unfold extractBusyRangesForResource primaryBusy
    unfold primaryBusy at hne
    dsimp only at hne ⊢
    by_cases hc : (truthy (usageContainer p rid) && objLike (usageContainer p rid)) = true
    · rw [if_pos hc, if_pos hc]
    · rw [if_neg hc] at hne
      exact absurd rfl hne
  · intro hc hfb
    have hext : extractBusyRangesForResource p rid = [] := by
      unfold extractBusyRangesForResource
      dsimp only
      rw [hc, hfb]
      simp
    refine ⟨hext, ?_⟩
    intro herr
    unfold classifyUsage
    rw [herr]
    dsimp only
    rw [hext]
    rfl

/-- Witness for C4: a payload whose primary container holds one unix-second
interval (first conjunct), and the empty payload with no container at all
(second conjunct). -/
theorem busy_fallback_witness :
    extractBusyRangesForResource
        (.obj [("data", .obj [("usage", .obj [("7",
          .obj [("0", .obj [("from", .num 1700000000), ("to", .num 1700086400)])])])])])
        "7" =
      primaryBusy
        (.obj [("data", .obj [("usage", .obj [("7",
          .obj [("0", .obj [("from", .num 1700000000), ("to", .num 1700086400)])])])])])
        "7" ∧
    extractBusyRangesForResource (.obj []) "7" = [] ∧
    (classifyUsage (.obj []) "7" (some 0) (some 1)).isAvailable = true := by
  refine ⟨?_, ?_⟩
  · exact (busy_fallback_only_if_primary_empty _ "7" none none).1 (by decide)
  · have h := (busy_fallback_only_if_primary_empty (.obj []) "7" (some 0) (some 1)).2
      (by rfl) (by rfl)
    exact ⟨h.1, h.2 rfl⟩

theorem qpow10_pos (e : Int) : 0 < qpow10 e := by
  cases e with
  | ofNat k => exact pow_pos (by norm_num) k
  | negSucc k => exact inv_pos.mpr (pow_pos (by norm_num) (k + 1))

/-- The positivity test the handler performs on the mantissa is exactly
positivity of the denoted rational value (`qty <= 0` in the source). -/
theorem DecNum.toRat_nonpos_iff (d : DecNum) : d.toRat ≤ 0 ↔ d.mant ≤ 0 := by
  unfold DecNum.toRat
  have hp := qpow10_pos d.exp
  constructor
  · intro h
    by_contra hm
    push_neg at hm
    have hm' : (0 : Rat) < (d.mant : Rat) := by exact_mod_cast hm
    nlinarith
  · intro h
    have h' : (d.mant : Rat) ≤ 0 := by exact_mod_cast h
    nlinarith

/-- Counterexample to C5 as stated: `quantity=` (the empty string) is a
present parameter and `Number("")` is 0, which is not strictly positive,
yet the handler falls back to the default through `quantity || 1` and makes
the outbound call with status 200. -/
theorem quantity_empty_string_ce :
    jsNumber "" = some ⟨0, 0⟩ ∧
    DecNum.toRat ⟨0, 0⟩ ≤ 0 ∧
    (searchHandler (some "2024-01-01") (some "2024-01-02") (some "") none
        (JVal.obj [])).status = 200 ∧
    (searchHandler (some "2024-01-01") (some "2024-01-02") (some "") none
        (JVal.obj [])).madeCall = true := by
  refine ⟨rfl, ?_, rfl, rfl⟩
  simp [DecNum.toRat, qpow10]

theorem searchHandler_validate_none {startQ endQ quantityQ ridsQ : Option String}
    (up : JVal) (hv : searchValidate startQ endQ quantityQ ridsQ = none) :
    searchHandler startQ endQ quantityQ ridsQ up =
      ⟨400, false, none, none, [], [], false⟩ := by
  unfold searchHandler
  rw [hv]

theorem searchHandler_validate_some {startQ endQ quantityQ ridsQ : Option String}
    (up : JVal) {qty : DecNum} {ids : List String}
    (hv : searchValidate startQ endQ quantityQ ridsQ = some (qty, ids)) :
    (searchHandler startQ endQ quantityQ ridsQ up).status = 200 ∧
    (searchHandler startQ endQ quantityQ ridsQ up).madeCall = true ∧
    (searchHandler startQ endQ quantityQ ridsQ up).callQuantity = some qty ∧
    (searchHandler startQ endQ quantityQ ridsQ up).callFilter =
      (if ids.isEmpty then none else some (joinComma ids)) := by
  unfold searchHandler
  rw [hv]
  dsimp only
  cases herr : errCode up <;> exact ⟨rfl, rfl, rfl, rfl⟩

theorem searchValidate_quantity_bad {startQ endQ ridsQ : Option String} {q : String}
    (hq : q ≠ "") (hbad : ∀ d, jsNumber q = some d → d.mant ≤ 0) :
    searchValidate startQ endQ (some q) ridsQ = none := by
  unfold searchValidate
  by_cases hd : (isValidISODate startQ && isValidISODate endQ) = true
  · simp only [hd, Bool.not_true]
    rw [if_neg (by decide)]
    dsimp only [parseQty]
    rw [if_neg hq]
    cases hjn : jsNumber q with
    | none => rfl
    | some d =>
        dsimp only
        rw [if_pos (hbad d hjn)]
  · simp only [Bool.not_eq_true] at hd
    simp only [hd, Bool.not_false]
    rfl

theorem searchValidate_none_quantity {startQ endQ ridsQ : Option String}
    {qty : DecNum} {ids : List String}
    (hv : searchValidate startQ endQ none ridsQ = some (qty, ids)) : qty = ⟨1, 0⟩ := by
  unfold searchValidate at hv
  split at hv
  · exact Option.noConfusion hv
  · dsimp only [parseQty] at hv
    split at hv
    · exact Option.noConfusion hv
    · cases hv
      rfl

/-- C5 (amended): for a present and NON-EMPTY quantity parameter that does
not parse to a finite positive number the handler responds 400 and makes no
outbound call; an absent (or empty, via `quantity || 1`) parameter defaults
to quantity 1 on the outbound call. -/
theorem quantity_invalid_rejected :
    (∀ (startQ endQ ridsQ : Option String) (up : JVal) (q : String),
      q ≠ "" → (∀ d, jsNumber q = some d → d.toRat ≤ 0) →
      (searchHandler startQ endQ (some q) ridsQ up).status = 400 ∧
      (searchHandler startQ endQ (some q) ridsQ up).madeCall = false) ∧
    (∀ (startQ endQ ridsQ : Option String) (up : JVal),
      (searchHandler startQ endQ none ridsQ up).madeCall = true →
      (searchHandler startQ endQ none ridsQ up).callQuantity = some ⟨1, 0⟩) := by
  constructor
  · intro startQ endQ ridsQ up q hq hbad
    have hv : searchValidate startQ endQ (some q) ridsQ = none :=
      searchValidate_quantity_bad hq (fun d h => (DecNum.toRat_nonpos_iff d).mp (hbad d h))
    rw [searchHandler_validate_none up hv]
    exact ⟨rfl, rfl⟩
  · intro startQ endQ ridsQ up hcall
    cases hv : searchValidate startQ endQ none ridsQ with
    | none =>
        rw [searchHandler_validate_none up hv] at hcall
        exact Bool.noConfusion hcall
    | some pair =>
        obtain ⟨qty, ids⟩ := pair
        have hq1 := searchValidate_none_quantity hv
        subst hq1
        exact (searchHandler_validate_some up hv).2.2.1

/-- Witness for C5 (amended): `quantity=abc` is rejected with no outbound
call, and an absent quantity leads to an outbound call carrying quantity
1. -/
theorem quantity_invalid_rejected_witness :
    ((searchHandler (some "2024-01-01") (some "2024-01-02") (some "abc") none
        (JVal.obj [])).status = 400 ∧
     (searchHandler (some "2024-01-01") (some "2024-01-02") (some "abc") none
        (JVal.obj [])).madeCall = false) ∧
    (searchHandler (some "2024-01-01") (some "2024-01-02") none none
        (JVal.obj [])).callQuantity = some ⟨1, 0⟩ := by
  constructor
  · exact quantity_invalid_rejected.1 (some "2024-01-01") (some "2024-01-02") none
      (JVal.obj []) "abc" (by decide)
      (fun d h => by
        rw [show jsNumber "abc" = none from rfl] at h
        exact Option.noConfusion h)
  · exact quantity_invalid_rejected.2 (some "2024-01-01") (some "2024-01-02") none
      (JVal.obj []) rfl

theorem usageHandler_validate_none {startQ endQ ridsQ : Option String}
    (up : String → JVal) (hv : usageValidate startQ endQ ridsQ = none) :
    usageHandler startQ endQ ridsQ up = ⟨400, [], [], [], []⟩ := by
  unfold usageHandler
  rw [hv]

/-- C6: a usage-mode request with well-formed dates whose UTC-midnight
start instant is not strictly before the end instant (equality included) is
rejected with 400 before any outbound call. -/
theorem usage_range_rejected (s e : String) (ridsQ : Option String)
    (up : String → JVal) (ms1 ms2 : Int)
    (hs : isValidISODateStr s = true) (he : isValidISODateStr e = true)
    (h1 : toDateUTC s = some ms1) (h2 : toDateUTC e = some ms2)
    (hlt : ¬ms1 < ms2) :
    (usageHandler (some s) (some e) ridsQ up).status = 400 ∧
    (usageHandler (some s) (some e) ridsQ up).outboundCalls = [] := by
  have hv : usageValidate (some s) (some e) ridsQ = none := by
    unfold usageValidate
    have hcond : (isValidISODate (some s) && isValidISODate (some e)) = true := by
      simp [isValidISODate, hs, he]
    simp only [hcond, Bool.not_true]
    rw [if_neg (by decide)]
    dsimp only [toDateUTCOpt]
    rw [h1, h2]
    have hjl : jsLt (some ms1) (some ms2) = false := by
      simp only [jsLt]
      exact decide_eq_false hlt
    rw [hjl]
    rfl
  rw [usageHandler_validate_none up hv]
  exact ⟨rfl, rfl⟩

/-- Witness for C6 at start = end = 2024-05-01. -/
theorem usage_range_rejected_witness :
    (usageHandler (some "2024-05-01") (some "2024-05-01") (some "1")
        (fun _ => JVal.obj [])).status = 400 ∧
    (usageHandler (some "2024-05-01") (some "2024-05-01") (some "1")
        (fun _ => JVal.obj [])).outboundCalls = [] :=
  usage_range_rejected "2024-05-01" "2024-05-01" (some "1") (fun _ => JVal.obj [])
    1714521600000 1714521600000 (by decide) (by decide) (by decide) (by decide)
    (by decide)

/-- C7: the CSV `resourceIds` parameter is split on commas, entries
trimmed, empties dropped; an empty resulting id list is accepted in search
mode (the upstream call is still made, with no filter) but makes usage mode
reject with 400 and no outbound call. -/
theorem resourceIds_csv_modes :
    (∀ s : String,
      parseIds (some s) = ((splitComma s).map jsTrim).filter (fun t => !t.isEmpty)) ∧
    (∀ (startQ endQ ridsQ : Option String) (up : String → JVal),
      parseIds ridsQ = [] →
      (usageHandler startQ endQ ridsQ up).status = 400 ∧
      (usageHandler startQ endQ ridsQ up).outboundCalls = []) ∧
    (∀ (startQ endQ quantityQ ridsQ : Option String) (up : JVal) (qty : DecNum),
      searchValidate startQ endQ quantityQ ridsQ = some (qty, []) →
      (searchHandler startQ endQ quantityQ ridsQ up).madeCall = true ∧
      (searchHandler startQ endQ quantityQ ridsQ up).callFilter = none) := by
  refine ⟨?_, ?_, ?_⟩
  · intro s
    by_cases h : s = ""
    · subst h
      rfl
    · simp only [parseIds]
      rw [if_neg h]
  · intro startQ endQ ridsQ up hid
    have hv : usageValidate startQ endQ ridsQ = none := by
      unfold usageValidate
      by_cases hd : (isValidISODate startQ && isValidISODate endQ) = true
      · simp only [hd, Bool.not_true]
        rw [if_neg (by decide)]
        by_cases hj : jsLt (toDateUTCOpt startQ) (toDateUTCOpt endQ) = true
        · simp only [hj, Bool.not_true]
          rw [if_neg (by decide)]
          rw [hid]
          rfl
        · simp only [Bool.not_eq_true] at hj
          simp only [hj, Bool.not_false]
          rfl
      · simp only [Bool.not_eq_true] at hd
        simp only [hd, Bool.not_false]
        rfl
    rw [usageHandler_validate_none up hv]
    exact ⟨rfl, rfl⟩
  · intro startQ endQ quantityQ ridsQ up qty hv
    have h := searchHandler_validate_some up hv
    exact ⟨h.2.1, h.2.2.2.trans rfl⟩

/-- Witness for C7: `resourceIds= , ` parses to the empty id list; usage
mode rejects it with 400 and no call, search mode still calls upstream
without a filter. -/
theorem resourceIds_csv_modes_witness :
    ((usageHandler (some "2024-01-01") (some "2024-01-02") (some " , ")
        (fun _ => JVal.obj [])).status = 400 ∧
     (usageHandler (some "2024-01-01") (some "2024-01-02") (some " , ")
        (fun _ => JVal.obj [])).outboundCalls = []) ∧
    ((searchHandler (some "2024-01-01") (some "2024-01-02") none (some " , ")
        (JVal.obj [])).madeCall = true ∧
     (searchHandler (some "2024-01-01") (some "2024-01-02") none (some " , ")
        (JVal.obj [])).callFilter = none) := by
  constructor
  · exact resourceIds_csv_modes.2.1 (some "2024-01-01") (some "2024-01-02")
      (some " , ") (fun _ => JVal.obj []) (by decide)
  · exact resourceIds_csv_modes.2.2 (some "2024-01-01") (some "2024-01-02") none
      (some " , ") (JVal.obj []) ⟨1, 0⟩ (by decide)

theorem classifyUsage_id (p : JVal) (i : String) (sd ed : Option Int) :
    (classifyUsage p i sd ed).id = i := by
  unfold classifyUsage
  split <;> rfl

theorem map_filter_proj (ids : List String) (f : String → RState)
    (hid : ∀ i, (f i).id = i) (p : RState → Bool) :
    (((ids.map f).filter p).map fun r => r.id) = ids.filter (fun i => p (f i)) := by
  induction ids with
  | nil => rfl
  | cons a l ih =>
      simp only [List.map_cons, List.filter_cons]
      cases hp : p (f a) <;> simp [hp, hid a, ih]

/-- Counterexample to C9 as stated: the request `resourceIds=5,5` parses to
the id list ["5", "5"]; the response then lists "5" twice in
`availableResourceIds`, so a requested id does not appear exactly once. -/
theorem usage_partition_dup_ce :
    parseIds (some "5,5") = ["5", "5"] ∧
    (usageHandler (some "2024-01-01") (some "2024-01-02") (some "5,5")
        (fun _ => JVal.obj [])).status = 200 ∧
    (usageHandler (some "2024-01-01") (some "2024-01-02") (some "5,5")
        (fun _ => JVal.obj [])).availableResourceIds.count "5" = 2 ∧
    (usageHandler (some "2024-01-01") (some "2024-01-02") (some "5,5")
        (fun _ => JVal.obj [])).unavailableResourceIds = [] := by
  exact ⟨rfl, rfl, rfl, rfl⟩

/-- C9 (amended): in usage mode, PROVIDED the parsed request id list has no
duplicates, the two response lists are disjoint, every requested id lands
in exactly one of them (and in none twice, as both lists are duplicate
free), and each list preserves the requested relative order (it is a
sublist of the request list). -/
theorem usage_partition (startQ endQ ridsQ : Option String) (up : String → JVal)
    (sd ed : Option Int) (ids : List String)
    (hv : usageValidate startQ endQ ridsQ = some (sd, ed, ids))
    (hnd : ids.Nodup) :
    (∀ x, x ∈ (usageHandler startQ endQ ridsQ up).availableResourceIds →
      x ∉ (usageHandler startQ endQ ridsQ up).unavailableResourceIds) ∧
    (∀ x ∈ ids, x ∈ (usageHandler startQ endQ ridsQ up).availableResourceIds ∨
      x ∈ (usageHandler startQ endQ ridsQ up).unavailableResourceIds) ∧
    (usageHandler startQ endQ ridsQ up).availableResourceIds.Nodup ∧
    (usageHandler startQ endQ ridsQ up).unavailableResourceIds.Nodup ∧
    (usageHandler startQ endQ ridsQ up).availableResourceIds.Sublist ids ∧
    (usageHandler startQ endQ ridsQ up).unavailableResourceIds.Sublist ids := by
  have hids : ∀ i, (classifyUsage (up i) i sd ed).id = i :=
    fun i => classifyUsage_id (up i) i sd ed
  have ha : (usageHandler startQ endQ ridsQ up).availableResourceIds =
      ids.filter (fun i => (classifyUsage (up i) i sd ed).isAvailable) := by
    unfold usageHandler
    rw [hv]
    unfold usageRunOk
    dsimp only
    exact map_filter_proj ids _ hids _
  have hu : (usageHandler startQ endQ ridsQ up).unavailableResourceIds =
      ids.filter (fun i => !(classifyUsage (up i) i sd ed).isAvailable) := by
    unfold usageHandler
    rw [hv]
    unfold usageRunOk
    dsimp only
    exact map_filter_proj ids _ hids _
  rw [ha, hu]
  refine ⟨?_, ?_, hnd.filter _, hnd.filter _, List.filter_sublist _,
    List.filter_sublist _⟩
  · intro x hxa hxu
    have h1 := (List.mem_filter.mp hxa).2
    have h2 := (List.mem_filter.mp hxu).2
    rw [h1] at h2
    exact Bool.noConfusion h2
  · intro x hx
    cases hP : (classifyUsage (up x) x sd ed).isAvailable with
    | true => exact Or.inl (List.mem_filter.mpr ⟨hx, hP⟩)
    | false => exact Or.inr (List.mem_filter.mpr ⟨hx, by rw [hP]; rfl⟩)

/-- Witness for C9 (amended) on the duplicate-free request `7,8`. -/
theorem usage_partition_witness :
    (∀ x, x ∈ (usageHandler (some "2024-01-01") (some "2024-01-02") (some "7,8")
        (fun _ => JVal.obj [])).availableResourceIds →
      x ∉ (usageHandler (some "2024-01-01") (some "2024-01-02") (some "7,8")
        (fun _ => JVal.obj [])).unavailableResourceIds) ∧
    (∀ x ∈ (["7", "8"] : List String),
      x ∈ (usageHandler (some "2024-01-01") (some "2024-01-02") (some "7,8")
        (fun _ => JVal.obj [])).availableResourceIds ∨
      x ∈ (usageHandler (some "2024-01-01") (some "2024-01-02") (some "7,8")
        (fun _ => JVal.obj [])).unavailableResourceIds) ∧
    (usageHandler (some "2024-01-01") (some "2024-01-02") (some "7,8")
        (fun _ => JVal.obj [])).availableResourceIds.Nodup ∧
    (usageHandler (some "2024-01-01") (some "2024-01-02") (some "7,8")
        (fun _ => JVal.obj [])).unavailableResourceIds.Nodup ∧
    (usageHandler (some "2024-01-01") (some "2024-01-02") (some "7,8")
        (fun _ => JVal.obj [])).availableResourceIds.Sublist ["7", "8"] ∧
    (usageHandler (some "2024-01-01") (some "2024-01-02") (some "7,8")
        (fun _ => JVal.obj [])).unavailableResourceIds.Sublist ["7", "8"] :=
  usage_partition (some "2024-01-01") (some "2024-01-02") (some "7,8")
    (fun _ => JVal.obj []) (some 1704067200000) (some 1704153600000) ["7", "8"]
    (by decide) (by decide)

/-- Upstream oracle for the error-policy check: resource 2 answers with a
non-zero response code, resources 1 and 3 answer with an empty usage
container. -/
def upErrOracle : String → JVal := fun rid =>
  if rid = "2" then
    .obj [("response_code", .num 4), ("response_message", .str "Site offline")]
  else .obj [("data", .obj [("usage", .obj [])])]

/-- C1: on a usage request for resources 1,2,3 where only resource 2
answers with a non-zero response code, the conservative handler
(src/unnamed/part_001) marks exactly resource 2 unavailable, records its
code and message per id, and resolves resources 1 and 3 normally —
while the historical permissive variant (src/api/planyo-availability.js)
marks the erroring resource 2 AVAILABLE and records nothing, contradicting
the claim. -/
theorem usage_error_policy_divergence :
    (usageHandler (some "2024-01-01") (some "2024-01-03") (some "1,2,3")
        upErrOracle).availableResourceIds = ["1", "3"] ∧
    (usageHandler (some "2024-01-01") (some "2024-01-03") (some "1,2,3")
        upErrOracle).unavailableResourceIds = ["2"] ∧
    (usageHandler (some "2024-01-01") (some "2024-01-03") (some "1,2,3")
        upErrOracle).errorsByResourceId =
      [("2", JVal.num 4, JVal.str "Site offline")] ∧
    (usageHandlerPermissive (some "2024-01-01") (some "2024-01-03") (some "1,2,3")
        upErrOracle).availableResourceIds = ["1", "2", "3"] ∧
    (usageHandlerPermissive (some "2024-01-01") (some "2024-01-03") (some "1,2,3")
        upErrOracle).unavailableResourceIds = [] := by
  exact ⟨rfl, rfl, rfl, rfl, rfl⟩

/-- C8: for every item list, every worker limit of at least 1 and every
per-item function, every terminated run of the `mapWithConcurrency` worker
pool — under any scheduling, hence regardless of completion order —
produces a slot list of the same length as the input whose element at each
index i is the function applied to the item at index i. -/
theorem mapWithConcurrency_order {α β : Type} (items : List α) (limit : Nat)
    (fn : α → Nat → β) (hlim : 1 ≤ limit) (s : Mwc.St β)
    (hr : Relation.ReflTransGen (Mwc.Step items fn (min limit items.length))
      (Mwc.init (min limit items.length)) s)
    (ht : Mwc.Terminal s) :
    (Mwc.result items.length s).length = items.length ∧
    ∀ i (hi : i < items.length),
      (Mwc.result items.length s).get? i = some (some (fn items[i] i)) := by
  have hinv := Mwc.reach_inv hr
  constructor
  · simp [Mwc.result]
  · intro i hi
    have hW : 0 < min limit items.length :=
      lt_min (Nat.lt_of_lt_of_le Nat.zero_lt_one hlim)
        (Nat.lt_of_le_of_lt (Nat.zero_le i) hi)
    have hcur : items.length ≤ s.cursor := hinv.fin_cursor 0 hW (ht 0)
    have hic : i < s.cursor := Nat.lt_of_lt_of_le hi hcur
    rcases hinv.slots_lo i hic with ⟨a, hga, hsl⟩ | ⟨w, _, hww⟩
    · have hai : a = items[i] := by
        rw [List.get?_eq_getElem?, List.getElem?_eq_getElem hi] at hga
        exact (Option.some.injEq _ _).mp hga.symm
      unfold Mwc.result
      rw [List.get?_eq_getElem?, List.getElem?_map, List.getElem?_range hi]
      dsimp only [Option.map]
      rw [hsl, hai]
    · rw [ht w] at hww
      exact Mwc.WStat.noConfusion hww

/-- Item list of the concrete pool run used as a witness. -/
def mwcItems : List Nat := [3]

/-- Per-item function of the concrete pool run used as a witness. -/
def mwcFn : Nat → Nat → Nat := fun a i => a + i

/-- Final state of a complete one-worker run of the pool on `mwcItems`:
claim index 0, finish it, exit. -/
def mwcFinal : Mwc.St Nat :=
  ⟨1, Function.update (fun _ => (none : Option Nat)) 0 (some 3),
    Function.update (Function.update (Function.update
      (fun w => if w < 1 then Mwc.WStat.ready else Mwc.WStat.finished)
      0 (Mwc.WStat.running 0)) 0 Mwc.WStat.ready) 0 Mwc.WStat.finished⟩

/-- Witness for C8: the concrete run reaches a terminal state whose slot
list is [some 3] = [some (mwcFn 3 0)]. -/
theorem mapWithConcurrency_order_witness :
    (Mwc.result 1 mwcFinal).length = 1 ∧
    (Mwc.result 1 mwcFinal).get? 0 = some (some 3) := by
  have hr : Relation.ReflTransGen (Mwc.Step mwcItems mwcFn 1) (Mwc.init 1) mwcFinal :=
    Relation.ReflTransGen.tail (Relation.ReflTransGen.tail (Relation.ReflTransGen.tail
      Relation.ReflTransGen.refl
      (Mwc.Step.claim (Mwc.init 1) 0 (by decide) rfl (by decide)))
      (Mwc.Step.finish _ 0 0 3 (by decide) rfl rfl))
      (Mwc.Step.exitw _ 0 (by decide) rfl (by decide))
  have ht : Mwc.Terminal mwcFinal := by
    intro w
    by_cases hw : w = 0
    · subst hw
      rfl
    · simp only [mwcFinal]
      rw [Function.update_noteq hw, Function.update_noteq hw, Function.update_noteq hw]
      rw [if_neg (by omega)]
  have h := mapWithConcurrency_order mwcItems 1 mwcFn (by decide) mwcFinal hr ht
  exact ⟨h.1, h.2 0 (by decide)⟩
